import Mathlib

/-!
Verification of the HackShare classification-and-evaluation pipeline.

The definitions below are a shallow embedding of the Python sources:
QueryStats (src/stats.py), the catalog CSV reader
(src/data/catalog_data_reader.py), the prompt rendering and template
substitution (src/data/prompts.py), the classification-call error wrapper
(src/azure_openai.py) and the orchestrator loop (src/app.py).
Python ints are embedded as Int, float division as exact division in the
rationals, CSV files as a list of field names together with a list of rows
(a row is a total mapping from field name to cell text, as produced by
csv.DictReader; a row slot may be marked as failing, which models the row
iteration raising mid-file), and raised-then-caught exceptions as values
of an Except type that a wrapper function discards.
-/

namespace HackShare

/-! ## QueryStats (src/stats.py) -/

/-- The mutable statistics object of src/stats.py: total_queries is fixed at
construction, pass_count and fail_count start at zero. -/
structure QueryStats where
  total_queries : Int
  pass_count : Int
  fail_count : Int
deriving Repr, DecidableEq

/-- QueryStats.__init__ with the counters zeroed. -/
def QueryStats.init (total : Int) : QueryStats :=
  { total_queries := total, pass_count := 0, fail_count := 0 }

/-- increment_pass: add one to the pass counter. -/
def QueryStats.increment_pass (s : QueryStats) : QueryStats :=
  { s with pass_count := s.pass_count + 1 }

/-- increment_fail: add one to the fail counter. -/
def QueryStats.increment_fail (s : QueryStats) : QueryStats :=
  { s with fail_count := s.fail_count + 1 }

/-- get_pass_percentage: guarded by the total_queries == 0 check, otherwise
pass_count / total_queries * 100 (division embedded exactly, in the
rationals). -/
def QueryStats.get_pass_percentage (s : QueryStats) : ℚ :=
  if s.total_queries = 0 then 0 else ((s.pass_count : ℚ) / (s.total_queries : ℚ)) * 100

/-- get_fail_percentage: guarded by the total_queries == 0 check, otherwise
fail_count / total_queries * 100. -/
def QueryStats.get_fail_percentage (s : QueryStats) : ℚ :=
  if s.total_queries = 0 then 0 else ((s.fail_count : ℚ) / (s.total_queries : ℚ)) * 100

/-- get_processed_count: pass_count + fail_count. -/
def QueryStats.get_processed_count (s : QueryStats) : Int :=
  s.pass_count + s.fail_count

/-- get_remaining_count: max(0, total_queries - processed). -/
def QueryStats.get_remaining_count (s : QueryStats) : Int :=
  max 0 (s.total_queries - s.get_processed_count)

/-- The dictionary produced by get_stats_summary. -/
structure StatsSummary where
  total_queries : Int
  processed_queries : Int
  remaining_queries : Int
  pass_count : Int
  fail_count : Int
  pass_percentage : ℚ
  fail_percentage : ℚ
  completion_percentage : ℚ
deriving Repr, DecidableEq

/-- get_stats_summary: every derived field recomputed on read; the
completion percentage is guarded by total_queries > 0. -/
def QueryStats.get_stats_summary (s : QueryStats) : StatsSummary :=
  let processed := s.get_processed_count
  { total_queries := s.total_queries
    processed_queries := processed
    remaining_queries := s.get_remaining_count
    pass_count := s.pass_count
    fail_count := s.fail_count
    pass_percentage := s.get_pass_percentage
    fail_percentage := s.get_fail_percentage
    completion_percentage :=
      if 0 < s.total_queries then ((processed : ℚ) / (s.total_queries : ℚ)) * 100 else 0 }

/-- A finite sequence of increment_pass (true) / increment_fail (false)
calls applied in order to a QueryStats. -/
def applyCalls (s : QueryStats) (calls : List Bool) : QueryStats :=
  calls.foldl (fun s c => if c then s.increment_pass else s.increment_fail) s

/-! ## ClassificationResult and ResultsStore -/

/-- One per-query outcome record, as described in the spec data model. -/
structure ClassificationResult where
  query_id : String
  input_text : String
  expected_category : String
  predicted_category : String
  correct : Bool
deriving Repr, DecidableEq

/-- Modelled from the spec: the file results_store.py is imported by
src/app.py but is not among the sources; per the spec, ResultsStore is an
ordered, append-only collection of ClassificationResult records. -/
structure ResultsStore where
  results : List ClassificationResult
deriving Repr, DecidableEq

/-- Modelled from the spec: ResultsStore.add_result constructs a
ClassificationResult, appends it in arrival order, and returns the
correctness verdict, which is exact string equality of predicted and
expected (case-sensitive, no trimming). -/
def ResultsStore.add_result (store : ResultsStore) (id input expected predicted : String) :
    ResultsStore × Bool :=
  let correct := predicted == expected
  let record : ClassificationResult :=
    { query_id := id
      input_text := input
      expected_category := expected
      predicted_category := predicted
      correct := correct }
  ({ results := store.results ++ [record] }, correct)

/-! ## Catalog CSV reader (src/data/catalog_data_reader.py) -/

/-- A CSV data row as produced by csv.DictReader: a total mapping from
field name to cell text. -/
def Row : Type := String → String

/-- A parsed catalog item (the dictionary appended by read_catalog_csv). -/
structure CatalogItem where
  category : String
  name : String
  short_description : String
  description : String
deriving Repr, DecidableEq

/-- A CSV file as seen by csv.DictReader: the header fieldnames and the
row stream. A none slot models the row iteration raising at that point
(malformed line, decode error). -/
structure CsvFile where
  fieldnames : List String
  rows : List (Option Row)

/-- The four required columns checked by read_catalog_csv, in source
order. -/
def requiredColumns : List String :=
  ["Category", "Catalog Item Name", "Catalog Item Short Description",
   "Catalog Item Description"]

/-- The dictionary built from one CSV row inside the reading loop. -/
def rowToItem (row : Row) : CatalogItem :=
  { category := row "Category"
    name := row "Catalog Item Name"
    short_description := row "Catalog Item Short Description"
    description := row "Catalog Item Description" }

/-- The first required column absent from the header, if any (the column
whose check raises the ValueError in read_catalog_csv). -/
def missingColumn (fieldnames : List String) : Option String :=
  requiredColumns.find? (fun c => !(fieldnames.contains c))

/-- The row-reading loop: items are appended one by one; a failing row
slot aborts the loop (the exception propagates out of the for statement),
leaving the items appended so far. Returns the appended items and whether
the loop ran to completion. -/
def readRowsAux : List (Option Row) → List CatalogItem → List CatalogItem × Bool
  | [], acc => (acc, true)
  | none :: _, acc => (acc, false)
  | some r :: rest, acc => readRowsAux rest (acc ++ [rowToItem r])

/-- The exceptions that can be raised inside the try block of
read_catalog_csv. -/
inductive CatalogReadError where
  | openError
  | schemaError (column : String)
  | rowError
deriving Repr, DecidableEq

/-- The body of the try block of read_catalog_csv, with the raised
exception (if any) made explicit. The input is none when opening the file
raises. self.catalog_items is reset to [] first; the second component is
the value of self.catalog_items when the block finishes or the exception
leaves it. -/
def read_catalog_try :
    Option CsvFile → Except CatalogReadError (List CatalogItem) × List CatalogItem
  | none => (.error .openError, [])
  | some file =>
    match missingColumn file.fieldnames with
    | some c => (.error (.schemaError c), [])
    | none =>
      match readRowsAux file.rows [] with
      | (items, true) => (.ok items, items)
      | (items, false) => (.error .rowError, items)

/-- The reader object: its only state is the catalog_items list. -/
structure CatalogDataReader where
  catalog_items : List CatalogItem
deriving Repr, DecidableEq

/-- read_catalog_csv: the try body wrapped in the catch-all except handler,
which prints the error and returns the empty list. Returns the Python
return value together with the reader state after the call. -/
def read_catalog_csv (input : Option CsvFile) : List CatalogItem × CatalogDataReader :=
  match read_catalog_try input with
  | (.ok items, st) => (items, { catalog_items := st })
  | (.error _, st) => ([], { catalog_items := st })

/-- get_catalog_items: returns the stored list. -/
def CatalogDataReader.get_catalog_items (r : CatalogDataReader) : List CatalogItem :=
  r.catalog_items

/-! ## Catalog reference rendering (src/data/prompts.py, load_catalog_references) -/

/-- The separator line appended after each catalog item block: 29 dashes
and a newline. -/
def separatorLine : String := "-----------------------------\n"

/-- One loop iteration of load_catalog_references: the four labeled lines
followed by the separator line. -/
def formatItem (item : CatalogItem) : String :=
  "Category: " ++ item.category ++ "\n" ++
  "Subcategory: " ++ item.name ++ "\n" ++
  "Brief Description: " ++ item.short_description ++ "\n" ++
  "Description: " ++ item.description ++ "\n" ++
  separatorLine

/-- The formatted_text accumulation loop of load_catalog_references. -/
def render_reference_text (items : List CatalogItem) : String :=
  items.foldl (fun acc item => acc ++ formatItem item) ""

/-- The four labeled lines of an item block without the trailing separator
line (so that formatItem item = itemBody item ++ separatorLine). -/
def itemBody (item : CatalogItem) : String :=
  "Category: " ++ item.category ++ "\n" ++
  "Subcategory: " ++ item.name ++ "\n" ++
  "Brief Description: " ++ item.short_description ++ "\n" ++
  "Description: " ++ item.description ++ "\n"

/-! ## The user prompt template and Python str.format (src/data/prompts.py) -/

/-- The USER_PROMPT template literal, transcribed exactly. -/
def USER_PROMPT : String :=
  "\n  I would like to know the servicenow category of a generalised IT support request\n  that can be determined from a list of ServiceNow reference categories so that\n  it can be routed to the correct category for efficient service.\n  The reference categories are:\n  {references}\n\n  The customer request is:\n  {customer_request}\n"

/-- The literal text of USER_PROMPT before the references field. -/
def userPromptPre : String :=
  "\n  I would like to know the servicenow category of a generalised IT support request\n  that can be determined from a list of ServiceNow reference categories so that\n  it can be routed to the correct category for efficient service.\n  The reference categories are:\n  "

/-- The literal text of USER_PROMPT between the two fields. -/
def userPromptMid : String := "\n\n  The customer request is:\n  "

/-- The literal text of USER_PROMPT after the customer_request field. -/
def userPromptEnd : String := "\n"

/-- Reads a format field name: the characters before the next closing
brace, together with the remainder after it; none if no closing brace
follows. -/
def takeFieldName : List Char → Option (List Char × List Char)
  | [] => none
  | c :: rest =>
    if c = '}' then some ([], rest)
    else
      match takeFieldName rest with
      | none => none
      | some (n, r) => some (c :: n, r)

/-- Keyword-argument lookup for str.format. -/
def lookupEnv (env : List (String × String)) (name : String) : Option String :=
  (env.find? (fun kv => kv.fst == name)).map (fun kv => kv.snd)

/-- Python str.format over the template characters: literal characters are
copied, a doubled brace is an escaped literal brace, a field in braces is
replaced by the looked-up keyword value with the value characters inserted
without being rescanned, an unknown field name raises KeyError, and an
unmatched brace raises ValueError. Raised errors are the error branch.
The fuel argument only serves termination; every call site supplies at
least length + 1, which is never exhausted since each step consumes at
least one character. -/
def pyFormatAux (env : List (String × String)) : Nat → List Char → Except String (List Char)
  | 0, _ => .error "format: out of fuel"
  | _ + 1, [] => .ok []
  | fuel + 1, c :: rest =>
    if c = '{' then
      match rest with
      | '{' :: rest2 => (pyFormatAux env fuel rest2).map (fun t => '{' :: t)
      | _ =>
        (takeFieldName rest).elim
          (Except.error "ValueError: expected closing brace before end of string")
          (fun nr =>
            (lookupEnv env (String.mk nr.fst)).elim
              (Except.error ("KeyError: " ++ String.mk nr.fst))
              (fun v => (pyFormatAux env fuel nr.snd).map (fun t => v.data ++ t)))
    else if c = '}' then
      match rest with
      | '}' :: rest2 => (pyFormatAux env fuel rest2).map (fun t => '}' :: t)
      | _ => .error "ValueError: single closing brace encountered in format string"
    else
      (pyFormatAux env fuel rest).map (fun t => c :: t)

/-- template.format(**env): scan the template, never the substituted
values. -/
def pyFormat (template : String) (env : List (String × String)) : Except String String :=
  (pyFormatAux env (template.data.length + 1) template.data).map (fun l => String.mk l)

/-! ## The classification call wrapper (src/azure_openai.py) -/

/-- The try/except wrapper of get_chat_completion: the network call is an
external collaborator, embedded as its outcome, either the response
content or the text of a raised exception. The except branch converts any
exception into a descriptive string that is returned in place of a
response. -/
def get_chat_completion (outcome : Except String String) : String :=
  match outcome with
  | .ok content => content
  | .error e => "Error accessing Azure OpenAI: " ++ e

/-! ## The orchestrator loop (src/app.py, main) -/

/-- One support query row as loaded by load_support_queries. -/
structure SupportQuery where
  number : String
  brief_summary : String
  further_details : String
  category : String
deriving Repr, DecidableEq

/-- The classification input text built in the loop body:
the f-string combining the two free-text fields. -/
def customerQuery (q : SupportQuery) : String :=
  q.brief_summary ++ " - " ++ q.further_details

/-- The pure part of one iteration of the main loop of src/app.py: obtain
the response, record it in the results store, and update the statistics
from the returned verdict. The service outcome for the query is given as
an argument since the service is an external collaborator. -/
def loopStep (stats_store : QueryStats × ResultsStore)
    (qo : SupportQuery × Except String String) : QueryStats × ResultsStore :=
  let customer_query := customerQuery qo.fst
  let response := get_chat_completion qo.snd
  let (store2, is_correct) :=
    stats_store.snd.add_result qo.fst.number customer_query qo.fst.category response
  let stats2 :=
    if !is_correct then stats_store.fst.increment_fail else stats_store.fst.increment_pass
  (stats2, store2)

/-- The main loop of src/app.py over the support queries, each paired with
its service-call outcome: the USER_PROMPT substitution runs outside any
per-query handler, so a substitution error terminates the loop; otherwise
the iteration body runs and the loop continues with the next query. -/
def runLoop (catalog_references : String) :
    QueryStats × ResultsStore → List (SupportQuery × Except String String) →
    Except String (QueryStats × ResultsStore)
  | st, [] => .ok st
  | st, (query, outcome) :: rest =>
    match pyFormat USER_PROMPT
        [("references", catalog_references), ("customer_request", customerQuery query)] with
    | .error e => .error e
    | .ok _formatted => runLoop catalog_references (loopStep st (query, outcome)) rest

/-! ## Concrete sample inputs for evaluations -/

/-- An ordinary catalog item. -/
def sampleItem : CatalogItem :=
  { category := "SAP"
    name := "SAP new user"
    short_description := "Access request"
    description := "Creates a new SAP user" }

/-- A catalog item whose description contains the separator line. -/
def sepItem : CatalogItem :=
  { category := "Hardware"
    name := "Laptop"
    short_description := "hw"
    description := "-----------------------------\nplease help" }

/-- A sample CSV row. -/
def sampleRow : Row := fun c => if c = "Category" then "SAP" else c

/-- A second sample CSV row. -/
def sampleRow2 : Row := fun c => if c = "Category" then "Network" else c

/-- A valid catalog file with all required columns and two readable rows. -/
def validFile : CsvFile :=
  { fieldnames := requiredColumns
    rows := [some sampleRow, some sampleRow2] }

/-- A catalog file whose header lacks the Category column. -/
def missingCategoryFile : CsvFile :=
  { fieldnames := ["Catalog Item Name", "Catalog Item Short Description",
                   "Catalog Item Description"]
    rows := [] }

/-- A catalog file whose first row slot fails to read. -/
def failingRowFile : CsvFile :=
  { fieldnames := requiredColumns
    rows := [none] }

/-- A catalog file with one readable row followed by a failing slot. -/
def partialFile : CsvFile :=
  { fieldnames := requiredColumns
    rows := [some sampleRow, none] }

/-- A support query whose summary contains brace characters. -/
def braceQuery : SupportQuery :=
  { number := "1"
    brief_summary := "need {braces} fixed"
    further_details := "asap"
    category := "SAP-SAP new user" }

/-- An ordinary support query. -/
def plainQuery : SupportQuery :=
  { number := "2"
    brief_summary := "hello"
    further_details := ""
    category := "X" }

/-! ## Splitting on the separator line

The round-trip property of the rendered reference text is stated with a
Python-str.split style splitter over character lists: the text is cut at
each leftmost non-overlapping occurrence of the separator, and the
recovered item count is the number of nonempty parts. -/

/-- The separator characters: 29 dashes and a newline. -/
def sepChars : List Char := separatorLine.data

/-- Does p occur as a contiguous sublist of l? -/
def hasOccB (p : List Char) : List Char → Bool
  | [] => p.isEmpty
  | c :: rest => p.isPrefixOf (c :: rest) || hasOccB p rest

/-- Split l at each leftmost non-overlapping occurrence of p. The fuel
argument only serves termination; each step consumes at least one
character, and every call site supplies at least the length of the
list, so the fuel never runs out. -/
def splitAux (p : List Char) : Nat → List Char → List (List Char)
  | 0, l => [l]
  | _ + 1, [] => [[]]
  | fuel + 1, c :: rest =>
    if !p.isEmpty && p.isPrefixOf (c :: rest) then
      [] :: splitAux p fuel (List.drop p.length (c :: rest))
    else
      match splitAux p fuel rest with
      | [] => [[c]]
      | h :: t => (c :: h) :: t

/-- Split a character list at every occurrence of p. -/
def listSplitOn (p : List Char) (l : List Char) : List (List Char) :=
  splitAux p l.length l

/-- The number of nonempty parts obtained by splitting a string on the
separator line. -/
def splitCount (s : String) : Nat :=
  ((listSplitOn sepChars s.data).filter (fun part => !part.isEmpty)).length

/-- The separator characters, in replicate form. -/
theorem sepChars_eq : sepChars = List.replicate 29 '-' ++ ['\n'] := by decide

/-- isPrefixOf gives a decomposition of the larger list. -/
theorem isPrefixOf_ex_append :
    ∀ {p l : List Char}, p.isPrefixOf l = true → ∃ u, l = p ++ u := by
  intro p
  induction p with
  | nil => intro l _; exact ⟨l, rfl⟩
  | cons a as ih =>
    intro l h
    cases l with
    | nil => simp [List.isPrefixOf] at h
    | cons b bs =>
      simp only [List.isPrefixOf, Bool.and_eq_true, beq_iff_eq] at h
      obtain ⟨u, hu⟩ := ih h.2
      exact ⟨u, by simp [h.1, hu]⟩

/-- A list is a prefix of itself followed by anything. -/
theorem isPrefixOf_append_self : ∀ (p u : List Char), p.isPrefixOf (p ++ u) = true := by
  intro p
  induction p with
  | nil => intro u; simp [List.isPrefixOf]
  | cons a as ih => intro u; simp [List.isPrefixOf, ih]

/-- A decomposition witness makes the occurrence test true. -/
theorem hasOccB_of_ex (p : List Char) :
    ∀ l, (∃ u, l = p ++ u) → hasOccB p l = true := by
  intro l hl
  obtain ⟨u, hu⟩ := hl
  cases l with
  | nil =>
    have hp : p = [] := by
      cases p with
      | nil => rfl
      | cons a as => simp at hu
    simp [hasOccB, hp]
  | cons c rest =>
    have : p.isPrefixOf (c :: rest) = true := by rw [hu]; exact isPrefixOf_append_self p u
    simp [hasOccB, this]

/-- If the separator does not occur in a block that ends with a newline,
then it is not a prefix of that block followed by anything: an occurrence
straddling the block boundary would need a dash where the final newline
is. -/
theorem sep_not_prefix_append (x s : List Char)
    (hocc : hasOccB sepChars (x ++ ['\n']) = false) :
    sepChars.isPrefixOf ((x ++ ['\n']) ++ s) = false := by
  by_contra hcon
  rw [Bool.not_eq_false] at hcon
  obtain ⟨u, hu⟩ := isPrefixOf_ex_append hcon
  rw [List.append_assoc, List.singleton_append] at hu
  rcases lt_trichotomy x.length 29 with hlt | heq | hgt
  · obtain ⟨k, hk⟩ : ∃ k, 29 - x.length = k + 1 := ⟨28 - x.length, by omega⟩
    rw [sepChars_eq, List.append_assoc, List.singleton_append,
        show (29 : Nat) = x.length + (k + 1) by omega,
        List.replicate_add, List.append_assoc] at hu
    have hlen : x.length = (List.replicate x.length '-').length := by
      rw [List.length_replicate]
    obtain ⟨-, h2⟩ := List.append_inj hu hlen
    rw [List.replicate_succ, List.cons_append] at h2
    simp only [List.cons.injEq] at h2
    exact absurd h2.1 (by decide)
  · rw [sepChars_eq, List.append_assoc, List.singleton_append] at hu
    have hlen : x.length = (List.replicate 29 '-').length := by
      rw [List.length_replicate, heq]
    obtain ⟨h1, -⟩ := List.append_inj hu hlen
    have htrue : hasOccB sepChars (x ++ ['\n']) = true :=
      hasOccB_of_ex _ _ ⟨[], by rw [h1, List.append_nil, sepChars_eq]⟩
    rw [htrue] at hocc
    exact absurd hocc (by decide)
  · have hx30 : x.take 30 ++ x.drop 30 = x := List.take_append_drop 30 x
    rw [← hx30, List.append_assoc] at hu
    have hlen : (x.take 30).length = sepChars.length := by
      rw [List.length_take, show sepChars.length = 30 by decide]
      omega
    obtain ⟨h1, -⟩ := List.append_inj hu hlen
    have htrue : hasOccB sepChars (x ++ ['\n']) = true := by
      refine hasOccB_of_ex _ _ ⟨x.drop 30 ++ ['\n'], ?_⟩
      rw [← List.append_assoc, ← h1, hx30]
    rw [htrue] at hocc
    exact absurd hocc (by decide)

/-- The fuel argument of splitAux is irrelevant once it covers the length
of the list. -/
theorem splitAux_fuel (p : List Char) :
    ∀ (fuel : Nat) (l : List Char), l.length ≤ fuel → splitAux p fuel l = listSplitOn p l := by
  intro fuel
  induction fuel using Nat.strong_induction_on with
  | _ fuel ih =>
    intro l hl
    cases l with
    | nil => cases fuel <;> simp [splitAux, listSplitOn]
    | cons c rest =>
      cases fuel with
      | zero => simp [List.length_cons] at hl
      | succ f =>
        have hrest : rest.length ≤ f := by
          simp only [List.length_cons] at hl
          omega
        rw [listSplitOn]
        simp only [List.length_cons, splitAux]
        by_cases hc : (!p.isEmpty && p.isPrefixOf (c :: rest)) = true
        · have hp : 0 < p.length := by
            cases p with
            | nil => simp at hc
            | cons a as => simp
          have hd : (List.drop p.length (c :: rest)).length ≤ rest.length := by
            simp only [List.length_drop, List.length_cons]
            omega
          rw [if_pos hc, if_pos hc,
              ih f (Nat.lt_succ_self f) _ (le_trans hd hrest),
              ih rest.length (Nat.lt_succ_of_le hrest) _ hd]
        · rw [if_neg hc, if_neg hc, ih f (Nat.lt_succ_self f) rest hrest, listSplitOn]

/-- The step equation of splitAux on a nonempty list with fuel left. -/
theorem splitAux_cons (p : List Char) (fuel : Nat) (c : Char) (rest : List Char) :
    splitAux p (fuel + 1) (c :: rest) =
      if !p.isEmpty && p.isPrefixOf (c :: rest) then
        [] :: splitAux p fuel (List.drop p.length (c :: rest))
      else
        match splitAux p fuel rest with
        | [] => [[c]]
        | h :: t => (c :: h) :: t := by
  simp only [splitAux]

/-- Splitting a list that begins with the separator cuts an empty part and
continues after it. -/
theorem splitAux_at_sep (t : List Char) (fuel : Nat)
    (hf : (sepChars ++ t).length ≤ fuel) :
    splitAux sepChars fuel (sepChars ++ t) = [] :: listSplitOn sepChars t := by
  have hlen : (sepChars ++ t).length = 30 + t.length := by
    rw [List.length_append, show sepChars.length = 30 by decide]
  cases fuel with
  | zero => rw [hlen] at hf; omega
  | succ f =>
    have ht : t.length ≤ f := by rw [hlen] at hf; omega
    obtain ⟨c, l', hst⟩ : ∃ c l', sepChars ++ t = c :: l' := by
      cases h : sepChars ++ t with
      | nil => rw [h] at hlen; simp only [List.length_nil] at hlen; omega
      | cons a b => exact ⟨a, b, rfl⟩
    rw [hst, splitAux_cons]
    have hcond : (!sepChars.isEmpty && sepChars.isPrefixOf (c :: l')) = true := by
      rw [← hst, isPrefixOf_append_self]
      decide
    rw [if_pos hcond, ← hst, List.drop_left, splitAux_fuel sepChars f t ht]

/-- Splitting a newline-terminated block followed by the separator and a
tail cuts exactly at the separator, provided the separator does not occur
inside the block. -/
theorem splitAux_boundary :
    ∀ (x t : List Char) (fuel : Nat),
    hasOccB sepChars (x ++ ['\n']) = false →
    ((x ++ ['\n']) ++ sepChars ++ t).length ≤ fuel →
    splitAux sepChars fuel ((x ++ ['\n']) ++ sepChars ++ t) =
      (x ++ ['\n']) :: listSplitOn sepChars t := by
  intro x
  induction x with
  | nil =>
    intro t fuel hocc hf
    have hshape : (([] : List Char) ++ ['\n']) ++ sepChars ++ t = '\n' :: (sepChars ++ t) := by
      simp
    have hhead : (([] : List Char) ++ ['\n']) = ['\n'] := by simp
    rw [hshape] at hf
    rw [hshape, hhead]
    cases fuel with
    | zero => simp only [List.length_cons] at hf; omega
    | succ f =>
      rw [splitAux_cons]
      have hnp : sepChars.isPrefixOf ('\n' :: (sepChars ++ t)) = false := by
        have h := sep_not_prefix_append [] (sepChars ++ t) (by decide)
        simpa using h
      rw [if_neg (by rw [hnp]; simp)]
      rw [splitAux_at_sep t f (by simp only [List.length_cons] at hf; omega)]
  | cons c x' ih =>
    intro t fuel hocc hf
    have hshape : ((c :: x') ++ ['\n']) ++ sepChars ++ t
        = c :: ((x' ++ ['\n']) ++ sepChars ++ t) := by
      simp
    have hhead : ((c :: x') ++ ['\n']) = c :: (x' ++ ['\n']) := by simp
    rw [hshape] at hf
    rw [hshape, hhead]
    have hocc' : hasOccB sepChars (x' ++ ['\n']) = false := by
      simp only [List.cons_append, hasOccB, Bool.or_eq_false_iff] at hocc
      exact hocc.2
    cases fuel with
    | zero => simp only [List.length_cons] at hf; omega
    | succ f =>
      rw [splitAux_cons]
      have hnp : sepChars.isPrefixOf (c :: ((x' ++ ['\n']) ++ sepChars ++ t)) = false := by
        have h := sep_not_prefix_append (c :: x') (sepChars ++ t) hocc
        simpa only [List.cons_append, List.append_assoc] using h
      rw [if_neg (by rw [hnp]; simp)]
      rw [ih t f hocc' (by simp only [List.length_cons] at hf; omega)]

/-- formatItem is the item body followed by the separator line. -/
theorem formatItem_eq (item : CatalogItem) :
    formatItem item = itemBody item ++ separatorLine := rfl

/-- The characters of an item body end with a newline. -/
theorem itemBody_data (item : CatalogItem) :
    ∃ y, (itemBody item).data = y ++ ['\n'] := by
  refine ⟨("Category: " ++ item.category ++ "\n" ++ "Subcategory: " ++ item.name ++ "\n" ++
    "Brief Description: " ++ item.short_description ++ "\n" ++
    "Description: " ++ item.description).data, ?_⟩
  rw [itemBody, String.data_append]

/-- An item body is never empty. -/
theorem itemBody_data_isEmpty (item : CatalogItem) :
    (itemBody item).data.isEmpty = false := by
  obtain ⟨y, hy⟩ := itemBody_data item
  rw [hy]
  cases y <;> simp

/-- The accumulated formatted_text is the accumulator followed by the
blocks of all items, in order. -/
theorem render_foldl_data :
    ∀ (items : List CatalogItem) (acc : String),
    (items.foldl (fun a it => a ++ formatItem it) acc).data =
      acc.data ++ (items.map (fun it => (formatItem it).data)).flatten := by
  intro items
  induction items with
  | nil => intro acc; simp
  | cons it rest ih =>
    intro acc
    simp only [List.foldl_cons, List.map_cons, List.flatten_cons]
    rw [ih, String.data_append, List.append_assoc]

/-- The rendered reference text is the order-preserving concatenation of
the item blocks. -/
theorem render_reference_text_data (items : List CatalogItem) :
    (render_reference_text items).data =
      (items.map (fun it => (formatItem it).data)).flatten := by
  rw [render_reference_text, render_foldl_data]
  rfl

/-- Splitting the concatenated blocks on the separator yields one part per
item (plus a final empty part), provided no item body contains the
separator. -/
theorem listSplitOn_blocks :
    ∀ (items : List CatalogItem),
    (∀ it ∈ items, hasOccB sepChars (itemBody it).data = false) →
    listSplitOn sepChars ((items.map (fun it => (formatItem it).data)).flatten) =
      items.map (fun it => (itemBody it).data) ++ [[]] := by
  intro items
  induction items with
  | nil => intro _; simp [listSplitOn, splitAux]
  | cons it rest ih =>
    intro hocc
    obtain ⟨y, hy⟩ := itemBody_data it
    have hb : (formatItem it).data = (itemBody it).data ++ sepChars := by
      rw [formatItem_eq, String.data_append]
      rfl
    have hocchd : hasOccB sepChars (y ++ ['\n']) = false := by
      rw [← hy]
      exact hocc it (List.mem_cons_self it rest)
    simp only [List.map_cons, List.flatten_cons]
    rw [hb, hy, listSplitOn,
        splitAux_boundary y _ _ hocchd le_rfl,
        ih (fun a ha => hocc a (List.mem_cons_of_mem it ha)), List.cons_append]

/-! ## Evaluation of the USER_PROMPT substitution -/

/-- The step equation of pyFormatAux on a nonempty template with fuel
left. -/
theorem pyFormatAux_cons (env : List (String × String)) (fuel : Nat) (c : Char)
    (rest : List Char) :
    pyFormatAux env (fuel + 1) (c :: rest) =
      if c = '{' then
        match rest with
        | '{' :: rest2 => (pyFormatAux env fuel rest2).map (fun t => '{' :: t)
        | _ =>
          (takeFieldName rest).elim
            (Except.error "ValueError: expected closing brace before end of string")
            (fun nr =>
              (lookupEnv env (String.mk nr.fst)).elim
                (Except.error ("KeyError: " ++ String.mk nr.fst))
                (fun v => (pyFormatAux env fuel nr.snd).map (fun t => v.data ++ t)))
      else if c = '}' then
        match rest with
        | '}' :: rest2 => (pyFormatAux env fuel rest2).map (fun t => '}' :: t)
        | _ => .error "ValueError: single closing brace encountered in format string"
      else
        (pyFormatAux env fuel rest).map (fun t => c :: t) := by
  simp only [pyFormatAux]

/-- Reading a field name from name characters followed by the closing
brace. -/
theorem takeFieldName_append :
    ∀ (n : List Char), (∀ c ∈ n, ¬(c = '}')) → ∀ (r : List Char),
    takeFieldName (n ++ '}' :: r) = some (n, r) := by
  intro n
  induction n with
  | nil => intro _ r; simp [takeFieldName]
  | cons a n' ih =>
    intro h r
    have ha : ¬(a = '}') := h a (List.mem_cons_self a n')
    simp only [List.cons_append, takeFieldName, if_neg ha]
    rw [show List.append n' ('}' :: r) = n' ++ '}' :: r from rfl,
        ih (fun c hc => h c (List.mem_cons_of_mem a hc)) r]

/-- Literal template characters are copied unchanged until the next
brace. -/
theorem pyFormatAux_copy (env : List (String × String)) :
    ∀ (l : List Char), (∀ c ∈ l, ¬(c = '{') ∧ ¬(c = '}')) →
    ∀ (f : Nat) (rest : List Char),
    pyFormatAux env (l.length + f) (l ++ rest) =
      (pyFormatAux env f rest).map (fun t => l ++ t) := by
  intro l
  induction l with
  | nil =>
    intro _ f rest
    simp only [List.length_nil, Nat.zero_add, List.nil_append]
    cases pyFormatAux env f rest <;> simp [Except.map]
  | cons c l' ih =>
    intro h f rest
    have hc := h c (List.mem_cons_self c l')
    have h' : ∀ x ∈ l', ¬(x = '{') ∧ ¬(x = '}') :=
      fun x hx => h x (List.mem_cons_of_mem c hx)
    simp only [List.length_cons, List.cons_append]
    rw [(by omega : l'.length + 1 + f = (l'.length + f) + 1), pyFormatAux_cons,
        if_neg hc.1, if_neg hc.2, ih h' f rest]
    cases pyFormatAux env f rest <;> simp [Except.map]

/-- A field whose name is found in the environment substitutes the value
without rescanning it. -/
theorem pyFormatAux_field (env : List (String × String)) (f : Nat)
    (n0 : Char) (n' r : List Char) (v : String)
    (hn0 : ¬(n0 = '{'))
    (hnb : ∀ c ∈ n0 :: n', ¬(c = '}'))
    (hlook : lookupEnv env (String.mk (n0 :: n')) = some v) :
    pyFormatAux env (f + 1) ('{' :: ((n0 :: n') ++ '}' :: r)) =
      (pyFormatAux env f r).map (fun t => v.data ++ t) := by
  rw [pyFormatAux_cons, if_pos rfl]
  simp only [List.cons_append]
  split
  · rename_i rest2 heq
    injection heq with h1 h2
    exact absurd h1 hn0
  · have htake := takeFieldName_append (n0 :: n') hnb r
    simp only [List.cons_append] at htake
    rw [htake]
    simp [Option.elim, hlook]

/-- The references keyword is found first in the environment. -/
theorem lookupEnv_references (refs req : String) :
    lookupEnv [("references", refs), ("customer_request", req)]
      (String.mk ['r','e','f','e','r','e','n','c','e','s']) = some refs := rfl

/-- The customer_request keyword is found second in the environment. -/
theorem lookupEnv_customer_request (refs req : String) :
    lookupEnv [("references", refs), ("customer_request", req)]
      (String.mk ['c','u','s','t','o','m','e','r','_','r','e','q','u','e','s','t'])
      = some req := rfl

set_option maxRecDepth 8000

/-- USER_PROMPT decomposed into its literal chunks and its two fields. -/
theorem userPrompt_decomposition :
    USER_PROMPT.data =
      userPromptPre.data ++ ('{' :: (['r','e','f','e','r','e','n','c','e','s'] ++ '}' ::
        (userPromptMid.data ++ ('{' ::
          (['c','u','s','t','o','m','e','r','_','r','e','q','u','e','s','t'] ++ '}' ::
            userPromptEnd.data))))) := by
  decide

/-- The USER_PROMPT substitution never raises, whatever characters the
substituted values contain: the result embeds both values verbatim
between the literal chunks of the template. -/
theorem pyFormat_userPrompt (refs req : String) :
    pyFormat USER_PROMPT [("references", refs), ("customer_request", req)] =
      .ok (userPromptPre ++ refs ++ userPromptMid ++ req ++ userPromptEnd) := by
  rw [pyFormat,
      (by decide : USER_PROMPT.data.length + 1 = userPromptPre.data.length + 63),
      userPrompt_decomposition,
      pyFormatAux_copy _ userPromptPre.data (by decide) 63 _,
      (by decide : (63 : Nat) = 62 + 1),
      pyFormatAux_field _ 62 'r' ['e','f','e','r','e','n','c','e','s'] _ refs
        (by decide) (by decide) (lookupEnv_references refs req),
      (by decide : (62 : Nat) = userPromptMid.data.length + 31),
      pyFormatAux_copy _ userPromptMid.data (by decide) 31 _,
      (by decide : (31 : Nat) = 30 + 1),
      pyFormatAux_field _ 30 'c' ['u','s','t','o','m','e','r','_','r','e','q','u','e','s','t'] _ req
        (by decide) (by decide) (lookupEnv_customer_request refs req),
      (show pyFormatAux [("references", refs), ("customer_request", req)] 30 userPromptEnd.data
          = .ok userPromptEnd.data from rfl)]
  simp only [Except.map]
  refine congrArg Except.ok (String.ext ?_)
  simp [String.data_append, List.append_assoc]

/-! ## Helper lemmas about the loop, the reader and the statistics -/

/-- The main loop never aborts: the prompt substitution always succeeds,
so the loop is the fold of its iteration body over the queries. -/
theorem runLoop_eq_foldl (catalog_references : String) :
    ∀ (pairs : List (SupportQuery × Except String String)) (st : QueryStats × ResultsStore),
    runLoop catalog_references st pairs = .ok (pairs.foldl loopStep st) := by
  intro pairs
  induction pairs with
  | nil => intro st; rfl
  | cons p rest ih =>
    intro st
    obtain ⟨query, outcome⟩ := p
    simp only [runLoop, List.foldl_cons]
    rw [pyFormat_userPrompt]
    exact ih (loopStep st (query, outcome))

/-- The results list accumulated by the loop body fold: one record per
query, in order, with the predicted value taken from the wrapped service
call. -/
theorem foldl_loopStep_results :
    ∀ (pairs : List (SupportQuery × Except String String)) (st : QueryStats × ResultsStore),
    (pairs.foldl loopStep st).snd.results
      = st.snd.results ++ pairs.map (fun qo =>
          { query_id := qo.fst.number
            input_text := customerQuery qo.fst
            expected_category := qo.fst.category
            predicted_category := get_chat_completion qo.snd
            correct := get_chat_completion qo.snd == qo.fst.category }) := by
  intro pairs
  induction pairs with
  | nil => intro st; simp
  | cons p rest ih =>
    intro st
    simp only [List.foldl_cons, List.map_cons]
    rw [ih]
    simp [loopStep, ResultsStore.add_result]

/-- Reading a fully readable row stream appends one item per row, in
order. -/
theorem readRowsAux_map_some :
    ∀ (rs : List Row) (acc : List CatalogItem),
    readRowsAux (rs.map some) acc = (acc ++ rs.map rowToItem, true) := by
  intro rs
  induction rs with
  | nil => intro acc; simp [readRowsAux]
  | cons r rest ih =>
    intro acc
    simp only [List.map_cons, readRowsAux]
    rw [ih]
    simp

/-- Reading a row stream that fails after a readable prefix keeps exactly
the prefix items and reports failure. -/
theorem readRowsAux_prefix_fail :
    ∀ (rs : List Row) (rest : List (Option Row)) (acc : List CatalogItem),
    readRowsAux (rs.map some ++ none :: rest) acc = (acc ++ rs.map rowToItem, false) := by
  intro rs
  induction rs with
  | nil => intro rest acc; simp [readRowsAux]
  | cons r rs' ih =>
    intro rest acc
    simp only [List.map_cons, List.cons_append, readRowsAux]
    rw [show (List.map some rs').append (none :: rest)
          = List.map some rs' ++ none :: rest from rfl, ih]
    simp

/-- A failing slot anywhere in the row stream makes the reading loop
report failure. -/
theorem readRowsAux_mem_none :
    ∀ (rows : List (Option Row)) (acc : List CatalogItem),
    none ∈ rows → (readRowsAux rows acc).snd = false := by
  intro rows
  induction rows with
  | nil => intro acc h; simp at h
  | cons o rest ih =>
    intro acc h
    cases o with
    | none => simp [readRowsAux]
    | some r =>
      have hmem : (none : Option Row) ∈ rest := by
        rcases List.mem_cons.mp h with h1 | h2
        · exact Option.noConfusion h1
        · exact h2
      simp [readRowsAux, ih _ hmem]

/-- Recording calls never changes the configured total. -/
theorem applyCalls_total_queries :
    ∀ (calls : List Bool) (s : QueryStats),
    (applyCalls s calls).total_queries = s.total_queries := by
  intro calls
  induction calls with
  | nil => intro s; rfl
  | cons c rest ih =>
    intro s
    simp only [applyCalls, List.foldl_cons] at *
    rw [ih (if c then s.increment_pass else s.increment_fail)]
    cases c <;> rfl

/-- Each recorded call adds exactly one to the sum of the two counters. -/
theorem applyCalls_counts :
    ∀ (calls : List Bool) (s : QueryStats),
    (applyCalls s calls).pass_count + (applyCalls s calls).fail_count
      = s.pass_count + s.fail_count + (calls.length : Int) := by
  intro calls
  induction calls with
  | nil => intro s; simp [applyCalls]
  | cons c rest ih =>
    intro s
    simp only [applyCalls, List.foldl_cons, List.length_cons] at *
    rw [ih (if c then s.increment_pass else s.increment_fail)]
    cases c <;>
      simp [QueryStats.increment_pass, QueryStats.increment_fail] <;>
      omega

/-! ## Claim theorems -/

/-- C1: with the Category column absent from the header, the schema check
does raise a ValueError inside the try block of read_catalog_csv, but the
catch-all except handler of the same function swallows it: the call
returns the empty list to its caller instead of letting the schema error
surface, so the run proceeds rather than aborting. -/
theorem schemaError_swallowed_at_missing_category :
    read_catalog_try (some missingCategoryFile)
      = (.error (.schemaError "Category"), []) ∧
    read_catalog_csv (some missingCategoryFile)
      = ([], { catalog_items := [] }) := by
  constructor <;> rfl

/-- C2: add_result returns true iff the predicted string equals the
expected string exactly (case-sensitive, untrimmed), and the orchestrator
loop body increments the pass counter exactly when that verdict is true
and the fail counter exactly when it is false, once per query. -/
theorem add_result_verdict_drives_counters
    (store : ResultsStore) (id input expected predicted : String)
    (stats : QueryStats) (q : SupportQuery) (outcome : Except String String) :
    ((store.add_result id input expected predicted).snd = true ↔ predicted = expected) ∧
    ((loopStep (stats, store) (q, outcome)).fst.pass_count
        = stats.pass_count +
          (if (store.add_result q.number (customerQuery q) q.category
              (get_chat_completion outcome)).snd then 1 else 0)) ∧
    ((loopStep (stats, store) (q, outcome)).fst.fail_count
        = stats.fail_count +
          (if (store.add_result q.number (customerQuery q) q.category
              (get_chat_completion outcome)).snd then 0 else 1)) := by
  refine ⟨by simp [ResultsStore.add_result], ?_, ?_⟩ <;>
    cases hb : (get_chat_completion outcome == q.category) <;>
      simp [loopStep, ResultsStore.add_result, QueryStats.increment_pass,
        QueryStats.increment_fail, hb]

/-- C3: after any sequence of N recorded calls with N at most the total,
pass_count plus fail_count equals N, the remaining count is
max(0, total - N), and for a positive total the pass and fail percentages
sum to the processed-count percentage of the summary. -/
theorem queryStats_sequence_invariants (total : Int) (calls : List Bool)
    (hN : (calls.length : Int) ≤ total) :
    ((applyCalls (QueryStats.init total) calls).pass_count
        + (applyCalls (QueryStats.init total) calls).fail_count
        = (calls.length : Int)) ∧
    ((applyCalls (QueryStats.init total) calls).get_remaining_count
        = max 0 (total - (calls.length : Int))) ∧
    (0 < total →
      (applyCalls (QueryStats.init total) calls).get_stats_summary.pass_percentage
        + (applyCalls (QueryStats.init total) calls).get_stats_summary.fail_percentage
        = (applyCalls (QueryStats.init total) calls).get_stats_summary.completion_percentage) := by
  have hc := applyCalls_counts calls (QueryStats.init total)
  rw [show (QueryStats.init total).pass_count = 0 from rfl,
      show (QueryStats.init total).fail_count = 0 from rfl] at hc
  have ht := applyCalls_total_queries calls (QueryStats.init total)
  rw [show (QueryStats.init total).total_queries = total from rfl] at ht
  refine ⟨by omega, ?_, ?_⟩
  · simp only [QueryStats.get_remaining_count, QueryStats.get_processed_count, ht]
    omega
  · intro hpos
    simp only [QueryStats.get_stats_summary, QueryStats.get_pass_percentage,
      QueryStats.get_fail_percentage, QueryStats.get_processed_count, ht]
    rw [if_neg (by omega), if_neg (by omega), if_pos hpos]
    push_cast
    rw [add_div, add_mul]

/-- C3 witness: two calls against a total of three. -/
theorem queryStats_sequence_invariants_witness :
    ((([true, false] : List Bool).length : Int) ≤ 3) ∧
    (((applyCalls (QueryStats.init 3) [true, false]).pass_count
        + (applyCalls (QueryStats.init 3) [true, false]).fail_count
        = (([true, false] : List Bool).length : Int)) ∧
      ((applyCalls (QueryStats.init 3) [true, false]).get_remaining_count
        = max 0 (3 - (([true, false] : List Bool).length : Int))) ∧
      (0 < (3 : Int) →
        (applyCalls (QueryStats.init 3) [true, false]).get_stats_summary.pass_percentage
          + (applyCalls (QueryStats.init 3) [true, false]).get_stats_summary.fail_percentage
          = (applyCalls (QueryStats.init 3)
              [true, false]).get_stats_summary.completion_percentage)) :=
  ⟨by decide, queryStats_sequence_invariants 3 [true, false] (by decide)⟩

/-- C4: with total_queries zero, every derived percentage evaluates to
zero through the zero-total guard branch, whatever the counters hold. -/
theorem zero_total_percentages (s : QueryStats) (h : s.total_queries = 0) :
    s.get_pass_percentage = 0 ∧ s.get_fail_percentage = 0 ∧
    s.get_stats_summary.pass_percentage = 0 ∧
    s.get_stats_summary.fail_percentage = 0 ∧
    s.get_stats_summary.completion_percentage = 0 := by
  simp [QueryStats.get_pass_percentage, QueryStats.get_fail_percentage,
    QueryStats.get_stats_summary, h]

/-- C4 witness: a zero-total object with nonzero counters. -/
theorem zero_total_percentages_witness :
    (QueryStats.mk 0 2 3).total_queries = 0 ∧
    ((QueryStats.mk 0 2 3).get_pass_percentage = 0 ∧
      (QueryStats.mk 0 2 3).get_fail_percentage = 0 ∧
      (QueryStats.mk 0 2 3).get_stats_summary.pass_percentage = 0 ∧
      (QueryStats.mk 0 2 3).get_stats_summary.fail_percentage = 0 ∧
      (QueryStats.mk 0 2 3).get_stats_summary.completion_percentage = 0) :=
  ⟨rfl, zero_total_percentages (QueryStats.mk 0 2 3) rfl⟩

/-- C5: every classification-call failure is caught inside
get_chat_completion and becomes the descriptive predicted string; the
loop never aborts, records exactly one result per query in order, and
continues past failing queries to the end of the dataset. -/
theorem service_errors_never_abort (catalog_references : String)
    (stats : QueryStats) (store : ResultsStore)
    (pairs : List (SupportQuery × Except String String)) :
    runLoop catalog_references (stats, store) pairs
      = .ok (pairs.foldl loopStep (stats, store)) ∧
    (pairs.foldl loopStep (stats, store)).snd.results
      = store.results ++ pairs.map (fun qo =>
          { query_id := qo.fst.number
            input_text := customerQuery qo.fst
            expected_category := qo.fst.category
            predicted_category := get_chat_completion qo.snd
            correct := get_chat_completion qo.snd == qo.fst.category }) ∧
    (∀ e, get_chat_completion (Except.error e) = "Error accessing Azure OpenAI: " ++ e) :=
  ⟨runLoop_eq_foldl catalog_references pairs (stats, store),
   foldl_loopStep_results pairs (stats, store),
   fun _ => rfl⟩

/-- C6: with the four required columns present and every row readable, the
load returns one item per data row, in input order, with the four fields
copied verbatim from the named cells of the row. -/
theorem read_catalog_csv_valid (file : CsvFile) (rs : List Row)
    (hcols : missingColumn file.fieldnames = none)
    (hrows : file.rows = rs.map some) :
    read_catalog_csv (some file)
      = (rs.map (fun row =>
           { category := row "Category"
             name := row "Catalog Item Name"
             short_description := row "Catalog Item Short Description"
             description := row "Catalog Item Description" }),
         { catalog_items := rs.map rowToItem }) := by
  simp only [read_catalog_csv, read_catalog_try, hcols, hrows, readRowsAux_map_some,
    List.nil_append]
  rfl

/-- C6 witness: a two-row catalog with all required columns. -/
theorem read_catalog_csv_valid_witness :
    (missingColumn validFile.fieldnames = none) ∧
    (validFile.rows = ([sampleRow, sampleRow2] : List Row).map some) ∧
    read_catalog_csv (some validFile)
      = (([sampleRow, sampleRow2] : List Row).map (fun row =>
           { category := row "Category"
             name := row "Catalog Item Name"
             short_description := row "Catalog Item Short Description"
             description := row "Catalog Item Description" }),
         { catalog_items := ([sampleRow, sampleRow2] : List Row).map rowToItem }) :=
  ⟨rfl, rfl, read_catalog_csv_valid validFile [sampleRow, sampleRow2] rfl rfl⟩

/-- C7 (amended): the rendered reference text is the order-preserving
concatenation of one four-labeled-line block plus a separator line per
item; and provided no item block body itself contains the separator line,
splitting the text on the separator line and discarding empty parts
recovers exactly the original number of items. -/
theorem render_reference_roundtrip (items : List CatalogItem)
    (hocc : ∀ it ∈ items, hasOccB sepChars (itemBody it).data = false) :
    (render_reference_text items).data
      = (items.map (fun it => (formatItem it).data)).flatten ∧
    splitCount (render_reference_text items) = items.length := by
  refine ⟨render_reference_text_data items, ?_⟩
  rw [splitCount, render_reference_text_data items, listSplitOn_blocks items hocc,
      List.filter_append]
  have h1 : (items.map (fun it => (itemBody it).data)).filter (fun part => !part.isEmpty)
      = items.map (fun it => (itemBody it).data) := by
    rw [List.filter_eq_self]
    intro a ha
    obtain ⟨it, hit, hai⟩ := List.mem_map.mp ha
    rw [← hai, itemBody_data_isEmpty]
    rfl
  rw [h1]
  simp

/-- C7 witness: one ordinary catalog item splits back into one part. -/
theorem render_reference_roundtrip_witness :
    (∀ it ∈ ([sampleItem] : List CatalogItem),
      hasOccB sepChars (itemBody it).data = false) ∧
    splitCount (render_reference_text [sampleItem]) = 1 :=
  ⟨by decide, (render_reference_roundtrip [sampleItem] (by decide)).2⟩

/-- C7 counterexample: an item whose description itself contains the
separator line breaks the round trip: the single item splits into two
nonempty parts, so the recovered count differs from the item count. -/
theorem render_split_roundtrip_counterexample :
    splitCount (render_reference_text [sepItem]) ≠ 1 := by
  decide

/-- C8: any I/O or parse failure during catalog loading makes the load
return the empty list instead of raising: a failed open returns [], and a
row stream failing anywhere returns [] as well. -/
theorem load_failures_return_empty :
    (read_catalog_csv none).fst = [] ∧
    (∀ file : CsvFile, none ∈ file.rows → (read_catalog_csv (some file)).fst = []) := by
  refine ⟨rfl, fun file hmem => ?_⟩
  rcases hcol : missingColumn file.fieldnames with _ | c
  · rcases hrr : readRowsAux file.rows [] with ⟨items, ok⟩
    have hok : ok = false := by
      have h := readRowsAux_mem_none file.rows [] hmem
      rw [hrr] at h
      exact h
    subst hok
    simp [read_catalog_csv, read_catalog_try, hcol, hrr]
  · simp [read_catalog_csv, read_catalog_try, hcol]

/-- C8 witness: a file whose first row slot fails to read. -/
theorem load_failures_return_empty_witness :
    ((none : Option Row) ∈ failingRowFile.rows) ∧
    (read_catalog_csv (some failingRowFile)).fst = [] :=
  ⟨by simp [failingRowFile], load_failures_return_empty.2 failingRowFile
    (by simp [failingRowFile])⟩

/-- C9 (amended): prompt composition is total over arbitrary ticket text:
for every support query, brace characters included, the USER_PROMPT
substitution returns the prompt with the catalog references and the query
text embedded verbatim, no exception is raised, and the loop continues
with the next query instead of terminating. -/
theorem prompt_composition_total (catalog_references : String) (q : SupportQuery)
    (outcome : Except String String) (st : QueryStats × ResultsStore)
    (rest : List (SupportQuery × Except String String)) :
    pyFormat USER_PROMPT [("references", catalog_references),
        ("customer_request", customerQuery q)]
      = .ok (userPromptPre ++ catalog_references ++ userPromptMid
          ++ customerQuery q ++ userPromptEnd) ∧
    runLoop catalog_references st ((q, outcome) :: rest)
      = runLoop catalog_references (loopStep st (q, outcome)) rest := by
  refine ⟨pyFormat_userPrompt catalog_references (customerQuery q), ?_⟩
  obtain ⟨stats, store⟩ := st
  simp only [runLoop, pyFormat_userPrompt]

/-- C9 counterexample: a query summary containing brace characters does
not make the substitution raise; the loop also processes the following
query, recording two results. -/
theorem brace_query_no_exception :
    (pyFormat USER_PROMPT [("references", "refs"),
        ("customer_request", customerQuery braceQuery)]).isOk = true ∧
    (runLoop "refs" (QueryStats.init 2, { results := [] })
        [(braceQuery, .ok "Unknown"), (plainQuery, .error "timeout")]).toOption.map
      (fun st => st.snd.results.length) = some 2 := by
  constructor <;> rfl

/-- C10: a load failing partway through the rows is not atomic with the
reader state: the call returns the empty list while catalog_items keeps
the rows appended before the failure, so a later get_catalog_items call
returns a non-empty partial list disagreeing with the returned value. -/
theorem partial_load_state_mismatch (file : CsvFile) (rs : List Row)
    (rest : List (Option Row))
    (hcols : missingColumn file.fieldnames = none)
    (hrows : file.rows = rs.map some ++ none :: rest)
    (hne : rs ≠ []) :
    (read_catalog_csv (some file)).fst = [] ∧
    (read_catalog_csv (some file)).snd.get_catalog_items = rs.map rowToItem ∧
    (read_catalog_csv (some file)).snd.get_catalog_items ≠ [] := by
  have h := readRowsAux_prefix_fail rs rest []
  refine ⟨?_, ?_, ?_⟩ <;>
    simp [read_catalog_csv, read_catalog_try, hcols, hrows, h,
      CatalogDataReader.get_catalog_items, hne]

/-- C10 witness: one readable row followed by a failing slot. -/
theorem partial_load_state_mismatch_witness :
    (missingColumn partialFile.fieldnames = none) ∧
    (partialFile.rows = ([sampleRow] : List Row).map some ++ none :: []) ∧
    (([sampleRow] : List Row) ≠ []) ∧
    ((read_catalog_csv (some partialFile)).fst = [] ∧
      (read_catalog_csv (some partialFile)).snd.get_catalog_items
        = ([sampleRow] : List Row).map rowToItem ∧
      (read_catalog_csv (some partialFile)).snd.get_catalog_items ≠ []) :=
  ⟨rfl, rfl, by simp,
   partial_load_state_mismatch partialFile [sampleRow] [] rfl rfl (by simp)⟩

end HackShare
